import Mathlib

/-!
Verification of the chat coordinator in `src/handlers.ts` (the final revision of the
file, i.e. the code after the draft separator: the `handle` dispatcher together with
`handleConnect`, `handleDisconnect`, `handleGetClients`, `handleGetMessages`,
`handleSendMessage`, `postToConnection`, `notifyClients`, `getEveryClient`,
`getConnectioinIdByNickname`, `buildClientsMessage`, `parseSendMessageBody` and
`parseGetMessagesBody`).

The embedding is a state-passing translation: the two DynamoDB tables become a `Db`
record threaded through each handler, the external collaborators (the push channel of
ApiGatewayManagementApi, the uuid generator `v4()` and the wall clock `new Date()`)
become the oracle record `Env`, and every side effect on the push channel or the
message table is recorded in a `List Event` in program order.  Thrown JavaScript
exceptions become the `Except Err` result component: `Err.handleError` is the
`HandleError` class used for body-validation echoes, `Err.badJson` is the
`SyntaxError` raised by `JSON.parse` on a malformed document, `Err.typeError` is the
TypeError raised by a property access on `undefined`, `Err.referenceError` is the
ReferenceError raised by the out-of-scope identifier `nickname` inside
`handleGetMessages`, and `Err.transportError` is any non-410 error of the push
collaborator, which the source rethrows.
-/

/-- Outcome of one attempted push to a connection id, the behaviour of the external
`apiGWManagementAPI.postToConnection` collaborator: delivery succeeded, the transport
reported status 410 (connection gone), or it raised some other error. -/
inductive PushOutcome
  | ok
  | gone
  | err
deriving DecidableEq, Repr

/-- The external collaborators of one invocation: the push channel (keyed by
connection id), the value produced by `v4()`, and the wall-clock epoch milliseconds
read by `new Date()`. -/
structure Env where
  push : String → PushOutcome
  uuid : String
  now : Nat

/-- One row of the `Clients` table (type `Client` in the source), keyed by
`connectionId` with a secondary index on `nickname`. -/
structure Client where
  connectionId : String
  nickname : String
deriving DecidableEq, Repr

/-- One row of the `Messages` table, as assembled in `handleSendMessage`. -/
structure Message where
  messageId : String
  createdAt : Nat
  nicknameToNickname : String
  message : String
  sender : String
deriving DecidableEq, Repr

/-- The durable state: both DynamoDB tables. -/
structure Db where
  clients : List Client
  messages : List Message
deriving DecidableEq, Repr

/-- Thrown JavaScript exceptions of the source, see the module comment. -/
inductive Err
  | handleError (msg : String)
  | badJson
  | typeError
  | referenceError
  | transportError
deriving DecidableEq, Repr

/-- Observable side effects, recorded in program order: a `put` into the `Messages`
table, and the `Data` string handed to the push collaborator for a connection id. -/
inductive Event
  | putMessage (m : Message)
  | post (connectionId : String) (data : String)
deriving DecidableEq, Repr

/-- The `APIGatewayProxyResult` shape the handlers return. -/
structure ApiResponse where
  statusCode : Nat
  body : String
deriving DecidableEq, Repr

/-- Source global `twoHundredResponse`. -/
def twoHundredResponse : ApiResponse := ⟨200, ""⟩

/-- Source global `forbidden`. -/
def forbidden : ApiResponse := ⟨403, ""⟩

/-- The `routeKey` tag of an inbound event (type `Action` in the source); `other`
covers the dispatcher's `default` arm. -/
inductive RouteKey
  | getClients
  | sendMessage
  | getMessages
  | disconnect
  | connect
  | other
deriving DecidableEq, Repr

/-- A JSON document value, the result of a successful `JSON.parse`. -/
inductive Json
  | null
  | bool (b : Bool)
  | num (n : Int)
  | str (s : String)
  | arr (elems : List Json)
  | obj (fields : List (String × Json))

/-- JavaScript truthiness of a parsed JSON value: `null`, `false`, `0` and the empty
string are the falsy ones `JSON.parse` can produce. -/
def Json.falsy : Json → Bool
  | .null => true
  | .bool b => !b
  | .num n => n == 0
  | .str s => s == ""
  | .arr _ => false
  | .obj _ => false

/-- Property lookup on a parsed object with `JSON.parse`'s duplicate-key semantics
(the last occurrence of a key wins); `none` is JavaScript's `undefined`. -/
def lookupLast : List (String × Json) → String → Option Json
  | [], _ => none
  | (k, v) :: rest, key =>
    match lookupLast rest key with
    | some r => some r
    | none => if k == key then some v else none

/-- Property access `v[key]` on a parsed value; on a non-object it yields
`undefined`. -/
def Json.getField : Json → String → Option Json
  | .obj fields, key => lookupLast fields key
  | _, _ => none

/-- Whether `typeof v === "string"` holds for a possibly-undefined property. -/
def isStr : Option Json → Bool
  | some (.str _) => true
  | _ => false

/-- Whether `typeof v === "number"` holds for a possibly-undefined property. -/
def isNum : Option Json → Bool
  | some (.num _) => true
  | _ => false

/-- The string value of a property already checked by `isStr`. -/
def asStr : Option Json → String
  | some (.str s) => s
  | _ => ""

/-- The numeric value of a property already checked by `isNum`. -/
def asNum : Option Json → Int
  | some (.num n) => n
  | _ => 0

/-- The raw inbound body as the dispatcher sees it, classified by what
`JSON.parse(body || "\x7b\x7d")` does with it: a `null` or empty body parses as the
empty object; a non-empty body that is not valid JSON raises a SyntaxError; a valid
document yields its value. -/
inductive BodyInput
  | nullOrEmpty
  | malformed
  | val (v : Json)

/-- `JSON.parse(body || "\x7b\x7d")` per the classification above. -/
def parseBody : BodyInput → Except Err Json
  | .nullOrEmpty => .ok (.obj [])
  | .malformed => .error .badJson
  | .val v => .ok v

/-- The `SendMessageBody` record type of the source. -/
structure SendMessageBody where
  message : String
  receiverNickname : String
deriving DecidableEq, Repr

/-- The `GetMessagesBody` record type of the source (`smartKey` is passed through
untyped). -/
structure GetMessagesBody where
  targetNickname : String
  limit : Int
  smartKey : Option Json

/-- Embeds `parseSendMessageBody` (handlers.ts:388-398): after `JSON.parse`, a falsy
value or a missing or non-string `message` or `receiverNickname` field raises
`HandleError("incorrect SendMessageBody format")`. -/
def parseSendMessageBody (body : BodyInput) : Except Err SendMessageBody :=
  match parseBody body with
  | .error e => .error e
  | .ok v =>
    if v.falsy || !isStr (v.getField "message")
        || !isStr (v.getField "receiverNickname") then
      .error (.handleError "incorrect SendMessageBody format")
    else
      .ok ⟨asStr (v.getField "message"), asStr (v.getField "receiverNickname")⟩

/-- Embeds `parseGetMessagesBody` (handlers.ts:400-410): after `JSON.parse`, a falsy
value, a non-string `targetNickname` or a non-number `limit` raises
`HandleError("incorrect GetNessages format")` (typo as in the source); nothing else
is validated — in particular neither positivity of `limit` nor non-emptiness of
`targetNickname`. -/
def parseGetMessagesBody (body : BodyInput) : Except Err GetMessagesBody :=
  match parseBody body with
  | .error e => .error e
  | .ok v =>
    if v.falsy || !isStr (v.getField "targetNickname")
        || !isNum (v.getField "limit") then
      .error (.handleError "incorrect GetNessages format")
    else
      .ok ⟨asStr (v.getField "targetNickname"), asNum (v.getField "limit"),
        v.getField "smartKey"⟩

/-- JavaScript truthiness of a `string | undefined` value: `undefined` and the empty
string are falsy. -/
def jsTruthyStr : Option String → Bool
  | some s => s != ""
  | none => false

/-- DynamoDB `get` on the `Clients` table by primary key (the lookup at the start of
`handleSendMessage`).  The table is keyed by `connectionId`, so the first match is
the row. -/
def getClientById (clients : List Client) (connectionId : String) : Option Client :=
  clients.find? (fun c => c.connectionId == connectionId)

/-- DynamoDB `delete` on the `Clients` table: removes the row keyed by
`connectionId`, no error when absent. -/
def removeClient (clients : List Client) (connectionId : String) : List Client :=
  clients.filter (fun c => c.connectionId != connectionId)

/-- DynamoDB `put` on the `Clients` table: upsert keyed by `connectionId` (the model
places the fresh row at the end of the scan order, which the store leaves
unspecified). -/
def putClient (clients : List Client) (row : Client) : List Client :=
  removeClient clients row.connectionId ++ [row]

/-- Embeds `getConnectioinIdByNickname` (handlers.ts:315-337): query the
`NicknameIndex` for the nickname; when the count is positive, the connectionId of the
first item is returned, otherwise `undefined`. -/
def getConnectioinIdByNickname (clients : List Client) (nickname : String) :
    Option String :=
  (clients.find? (fun c => c.nickname == nickname)).map (fun c => c.connectionId)

/-- Lexicographic comparison of character lists by code point, the order
`Array.prototype.sort`'s default comparator applies to two strings (they agree on all
basic-plane characters; the embedding uses code-point order throughout). -/
def charListLt : List Char → List Char → Bool
  | [], [] => false
  | [], _ :: _ => true
  | _ :: _, [] => false
  | a :: as, b :: bs =>
    if a < b then true else if b < a then false else charListLt as bs

/-- String comparison used by the JavaScript default sort comparator. -/
def strLtJs (a b : String) : Bool := charListLt a.data b.data

/-- Embeds handlers.ts:358: `[sender.nickname, body.receiverNickname].sort().join("#")`.
Sorting a two-element array ascending yields `[b, a]` exactly when `b < a`. -/
def conversationKey (a b : String) : String :=
  if strLtJs b a then b ++ "#" ++ a else a ++ "#" ++ b

/-- Escapes a string for inclusion in a JSON document, as `JSON.stringify` does for
its string values (the model covers strings without control characters, which is
every string handled in the development). -/
def jsonEscape (s : String) : String :=
  s.foldl (fun acc c =>
    if c = '"' then acc ++ "\\\""
    else if c = '\\' then acc ++ "\\\\"
    else acc.push c) ""

/-- `JSON.stringify` applied to a string value: the quoted, escaped literal. -/
def jsonStrLit (s : String) : String := "\"" ++ jsonEscape s ++ "\""

/-- The `Data` actually handed to the transport by `postToConnection`
(handlers.ts:205): the source applies `JSON.stringify` to its `data` argument even
though every call site already passes a serialized string, so the wire payload is the
JSON string literal quoting `data`. -/
def wireData (data : String) : String := jsonStrLit data

/-- `JSON.stringify({ type: "ping" })` as built inside the `handleConnect` guard. -/
def pingMessage : String := "\x7b\"type\":\"ping\"\x7d"

/-- `JSON.stringify` of one `{connectionId, nickname}` client record. -/
def clientJsonStr (c : Client) : String :=
  "\x7b\"connectionId\":" ++ jsonStrLit c.connectionId ++
    ",\"nickname\":" ++ jsonStrLit c.nickname ++ "\x7d"

/-- Comma join, as `JSON.stringify` renders the elements of an array. -/
def joinComma : List String → String
  | [] => ""
  | [s] => s
  | s :: rest => s ++ "," ++ joinComma rest

/-- Embeds `buildClientsMessage` (handlers.ts:339):
`JSON.stringify({ type: "clients", value: { clients } })`. -/
def buildClientsMessage (clients : List Client) : String :=
  "\x7b\"type\":\"clients\",\"value\":\x7b\"clients\":[" ++
    joinComma (clients.map clientJsonStr) ++ "]\x7d\x7d"

/-- The serialized message-delivery notification built at handlers.ts:377-383:
`JSON.stringify({ type: "message", value: { sender, message } })`. -/
def messagePayload (senderNickname messageBody : String) : String :=
  "\x7b\"type\":\"message\",\"value\":\x7b\"sender\":" ++ jsonStrLit senderNickname ++
    ",\"message\":" ++ jsonStrLit messageBody ++ "\x7d\x7d"

/-- Embeds `postToConnection` (handlers.ts:200-224): serialize `data` once more and
push it; on success return `true`; when the collaborator reports status 410, delete
the row for that connectionId from the `Clients` table and return `false`; any other
error is rethrown. -/
def postToConnection (env : Env) (clients : List Client) (connectionId data : String) :
    List Client × List Event × Except Err Bool :=
  match env.push connectionId with
  | .ok => (clients, [.post connectionId (wireData data)], .ok true)
  | .gone =>
    (removeClient clients connectionId, [.post connectionId (wireData data)], .ok false)
  | .err => (clients, [.post connectionId (wireData data)], .error .transportError)

/-- The `Promise.all` fan-out inside `notifyClients` (handlers.ts:229-235): every
target's push is attempted regardless of the other branches (a rejection does not
cancel the siblings), each branch on a 410 deletes only its own target's registry
key, and the joined promise rejects when any branch rejected.  Since the per-branch
deletions touch pairwise distinct keys, this left-to-right fold computes the same
final table and event set as the concurrent execution. -/
def fanOut (env : Env) (clients : List Client) (targets : List Client) (data : String) :
    List Client × List Event × Bool :=
  match targets with
  | [] => (clients, [], false)
  | t :: rest =>
    match postToConnection env clients t.connectionId data with
    | (clients1, evs1, r1) =>
      match fanOut env clients1 rest data with
      | (clients2, evs2, erred2) =>
        (clients2, evs1 ++ evs2,
          (match r1 with | .error _ => true | .ok _ => false) || erred2)

/-- Embeds `notifyClients` (handlers.ts:226-236): scan the full client list
(`getEveryClient`), and push `buildClientsMessage` of that snapshot to every client
except `connectionIdToIgnore`. -/
def notifyClients (env : Env) (clients : List Client) (connectionIdToIgnore : String) :
    List Client × List Event × Except Err Unit :=
  match fanOut env clients
      (clients.filter (fun c => c.connectionId != connectionIdToIgnore))
      (buildClientsMessage clients) with
  | (clients1, evs, true) => (clients1, evs, .error .transportError)
  | (clients1, evs, false) => (clients1, evs, .ok ())

/-- Embeds `handleGetClients` (handlers.ts:258-271): push the serialized client list
back to the requester, then acknowledge. -/
def handleGetClients (env : Env) (db : Db) (connectionId : String) :
    Db × List Event × Except Err ApiResponse :=
  match postToConnection env db.clients connectionId (buildClientsMessage db.clients) with
  | (clients1, evs, .error e) => (⟨clients1, db.messages⟩, evs, .error e)
  | (clients1, evs, .ok _) => (⟨clients1, db.messages⟩, evs, .ok twoHundredResponse)

/-- Embeds `handleDisconnect` (handlers.ts:273-284): delete the row keyed by the
departing connectionId (idempotent), broadcast presence to the remaining clients,
then acknowledge with 200. -/
def handleDisconnect (env : Env) (db : Db) (connectionId : String) :
    Db × List Event × Except Err ApiResponse :=
  match notifyClients env (removeClient db.clients connectionId) connectionId with
  | (clients2, evs, .error e) => (⟨clients2, db.messages⟩, evs, .error e)
  | (clients2, evs, .ok _) => (⟨clients2, db.messages⟩, evs, .ok twoHundredResponse)

/-- Embeds `handleConnect` (handlers.ts:286-313).  Note the guard at line 296 is
`existingConnectionId && JSON.stringify({ type: "ping" })`: the ping payload is
built but never sent, and since a non-empty string literal is always truthy the
guard collapses to the existence check on the nickname row. -/
def handleConnect (env : Env) (db : Db) (connectionId : String)
    (queryStringParameters : Option (List (String × String))) :
    Db × List Event × Except Err ApiResponse :=
  match queryStringParameters with
  | none => (db, [], .ok forbidden)
  | some params =>
    if !jsTruthyStr (params.lookup "nickname") then
      (db, [], .ok forbidden)
    else
      if jsTruthyStr (getConnectioinIdByNickname db.clients
            ((params.lookup "nickname").getD "")) && (pingMessage != "") then
        (db, [], .ok forbidden)
      else
        match notifyClients env
            (putClient db.clients ⟨connectionId, (params.lookup "nickname").getD ""⟩)
            connectionId with
        | (clients2, evs, .error e) => (⟨clients2, db.messages⟩, evs, .error e)
        | (clients2, evs, .ok _) => (⟨clients2, db.messages⟩, evs, .ok twoHundredResponse)

/-- The `Item` written to the `Messages` table by `handleSendMessage`
(handlers.ts:360-370): a fresh `v4()` id, `new Date().getMilliseconds()` — the
milliseconds-within-second component, i.e. epoch milliseconds modulo 1000 — the
sorted conversation key, the body and the sender nickname. -/
def msgOf (env : Env) (sender : Client) (body : SendMessageBody) : Message :=
  ⟨env.uuid, env.now % 1000, conversationKey sender.nickname body.receiverNickname,
    body.message, sender.nickname⟩

/-- Embeds `handleSendMessage` (handlers.ts:341-386): resolve the sender row by
connectionId (a missing row makes `sender.nickname` a property access on `undefined`,
a TypeError); put the message row; then, when the receiver nickname resolves to a
connectionId, push the delivery notification, ignoring its boolean result; finally
acknowledge 200. -/
def handleSendMessage (env : Env) (db : Db) (senderConnectionId : String)
    (body : SendMessageBody) : Db × List Event × Except Err ApiResponse :=
  match getClientById db.clients senderConnectionId with
  | none => (db, [], .error .typeError)
  | some sender =>
    if jsTruthyStr (getConnectioinIdByNickname db.clients body.receiverNickname) then
      match postToConnection env db.clients
          ((getConnectioinIdByNickname db.clients body.receiverNickname).getD "")
          (messagePayload sender.nickname body.message) with
      | (clients1, evs, .error e) =>
        (⟨clients1, db.messages ++ [msgOf env sender body]⟩,
          Event.putMessage (msgOf env sender body) :: evs, .error e)
      | (clients1, evs, .ok _) =>
        (⟨clients1, db.messages ++ [msgOf env sender body]⟩,
          Event.putMessage (msgOf env sender body) :: evs, .ok twoHundredResponse)
    else
      (⟨db.clients, db.messages ++ [msgOf env sender body]⟩,
        [Event.putMessage (msgOf env sender body)], .ok twoHundredResponse)

/-- Embeds `handleGetMessages` (handlers.ts:238-256).  The source body reads the
identifier `nickname`, which is not in scope anywhere in the file, so the invocation
raises a ReferenceError before any store call resolves (the function also never
awaits or returns its query); it is embedded as that unconditional error. -/
def handleGetMessages (db : Db) (_connectionId : String) (_body : GetMessagesBody) :
    Db × List Event × Except Err ApiResponse :=
  (db, [], .error .referenceError)

/-- One inbound event, the part of `APIGatewayProxyEvent` the dispatcher reads. -/
structure InboundEvent where
  connectionId : String
  routeKey : RouteKey
  body : BodyInput
  queryStringParameters : Option (List (String × String))

/-- The `catch` block of `handle` (handlers.ts:179-185): a `HandleError` is echoed to
the originating connection and the invocation resolves with 200 (if that echo push
itself raises, the rejection escapes the handler); every other exception is
rethrown. -/
def catchHandleError (env : Env) (db : Db) (connectionId : String) (e : Err) :
    Db × List Event × Except Err ApiResponse :=
  match e with
  | .handleError msg =>
    match postToConnection env db.clients connectionId msg with
    | (clients1, evs, .error e2) => (⟨clients1, db.messages⟩, evs, .error e2)
    | (clients1, evs, .ok _) => (⟨clients1, db.messages⟩, evs, .ok twoHundredResponse)
  | e => (db, [], .error e)

/-- Embeds the dispatcher `handle` (handlers.ts:156-188).  The `try` block only
shields exceptions thrown synchronously inside it: the two parse helpers run
synchronously, so their exceptions reach the `catch`; the dispatched handlers are
returned as promises without `await`, so their rejections bypass the `catch`
entirely.  Of the caught exceptions only `instanceof HandleError` is echoed; a
`SyntaxError` from `JSON.parse` is rethrown. -/
def handle (env : Env) (db : Db) (event : InboundEvent) :
    Db × List Event × Except Err ApiResponse :=
  match event.routeKey with
  | .getMessages =>
    match parseGetMessagesBody event.body with
    | .error e => catchHandleError env db event.connectionId e
    | .ok b => handleGetMessages db event.connectionId b
  | .sendMessage =>
    match parseSendMessageBody event.body with
    | .error e => catchHandleError env db event.connectionId e
    | .ok b => handleSendMessage env db event.connectionId b
  | .getClients => handleGetClients env db event.connectionId
  | .disconnect => handleDisconnect env db event.connectionId
  | .connect => handleConnect env db event.connectionId event.queryStringParameters
  | .other => (db, [], .ok ⟨500, ""⟩)

/-- Fixture: an environment where every connection is reachable. -/
def envOkAll : Env := ⟨fun _ => .ok, "uuid-1", 1723456789123⟩

/-- Fixture: an environment where every push reports the connection gone (410). -/
def envGoneAll : Env := ⟨fun _ => .gone, "uuid-1", 1723456789123⟩

/-- Fixture: an environment where every push raises a non-410 transport error. -/
def envErrAll : Env := ⟨fun _ => .err, "uuid-1", 1723456789123⟩

/-- Fixture: alice's registry row. -/
def aliceRow : Client := ⟨"cA", "alice"⟩

/-- Fixture: bob's registry row. -/
def bobRow : Client := ⟨"cB", "bob"⟩

/-- Fixture: a registry holding alice and bob, empty message log. -/
def dbAliceBob : Db := ⟨[aliceRow, bobRow], []⟩

/-- Fixture: the empty database. -/
def dbEmpty : Db := ⟨[], []⟩

/-- Fixture: a lone stale row for the nickname alice left by a dead connection. -/
def dbStaleAlice : Db := ⟨[⟨"c-old", "alice"⟩], []⟩

/-! Helper lemmas about the sort comparator. -/

theorem charListLt_asymm :
    ∀ as bs : List Char, charListLt as bs = true → charListLt bs as = false := by
  intro as
  induction as with
  | nil =>
    intro bs h
    cases bs with
    | nil => simp [charListLt] at h
    | cons b bs => simp [charListLt]
  | cons a as ih =>
    intro bs h
    cases bs with
    | nil => simp [charListLt] at h
    | cons b bs =>
      simp only [charListLt] at h ⊢
      rcases lt_trichotomy a b with hab | hab | hab
      · rw [if_neg (asymm hab), if_pos hab]
      · subst hab
        rw [if_neg (lt_irrefl a)] at h ⊢
        rw [if_neg (lt_irrefl a)] at h ⊢
        exact ih _ h
      · rw [if_neg (asymm hab), if_pos hab] at h
        exact absurd h (by simp)

theorem charListLt_eq_of_both_false :
    ∀ as bs : List Char, charListLt as bs = false → charListLt bs as = false → as = bs := by
  intro as
  induction as with
  | nil =>
    intro bs h1 _
    cases bs with
    | nil => rfl
    | cons b bs => simp [charListLt] at h1
  | cons a as ih =>
    intro bs h1 h2
    cases bs with
    | nil => simp [charListLt] at h2
    | cons b bs =>
      simp only [charListLt] at h1 h2
      rcases lt_trichotomy a b with hab | hab | hab
      · rw [if_pos hab] at h1
        exact absurd h1 (by simp)
      · subst hab
        rw [if_neg (lt_irrefl a), if_neg (lt_irrefl a)] at h1 h2
        rw [ih bs h1 h2]
      · rw [if_pos hab] at h2
        exact absurd h2 (by simp)

theorem strLtJs_asymm (a b : String) (h : strLtJs a b = true) : strLtJs b a = false :=
  charListLt_asymm _ _ h

theorem strLtJs_eq_of_both_false (a b : String)
    (h1 : strLtJs a b = false) (h2 : strLtJs b a = false) : a = b := by
  cases a
  cases b
  exact congrArg String.mk (charListLt_eq_of_both_false _ _ h1 h2)

/-- C2: for every pair of nicknames, the conversation key under which a message is
persisted is order independent: the key sorts the two nicknames and joins them with
the separator "#", so key(A,B) = key(B,A). -/
theorem conversationKey_order_independent (a b : String) :
    conversationKey a b = conversationKey b a := by
  unfold conversationKey
  cases hba : strLtJs b a with
  | true =>
    rw [strLtJs_asymm b a hba]
    simp
  | false =>
    cases hab : strLtJs a b with
    | true => simp
    | false => rw [strLtJs_eq_of_both_false a b hab hba]

/-- C1: the source never invokes the liveness verifier on a duplicate-nickname
connect.  The guard at handlers.ts:296 tests the truthy constant
`JSON.stringify({type:"ping"})` instead of pushing it, so a connect under a nickname
with an existing registry row is rejected with 403 and the row kept, for EVERY
behaviour of the push collaborator — in particular when the prior connection is
unreachable, where the spec requires eviction of the stale row and a successful
connect. -/
theorem connect_rejects_without_liveness_check (push : String → PushOutcome)
    (uuid : String) (now : Nat) :
    handleConnect ⟨push, uuid, now⟩ dbStaleAlice "c-new" (some [("nickname", "alice")]) =
      (dbStaleAlice, [], .ok forbidden) := rfl

/-- C4: a send whose sender connectionId has no registry row fails (the `undefined`
row makes `sender.nickname` raise) and writes nothing to the message store. -/
theorem sendMessage_fails_when_sender_missing (env : Env) (db : Db) (scid : String)
    (body : SendMessageBody) (h : getClientById db.clients scid = none) :
    handleSendMessage env db scid body = (db, [], .error .typeError) := by
  simp [handleSendMessage, h]

/-- Witness for C4 at a concrete input: the empty registry. -/
theorem sendMessage_fails_when_sender_missing_witness :
    getClientById dbEmpty.clients "cA" = none ∧
    handleSendMessage envOkAll dbEmpty "cA" ⟨"hi", "bob"⟩ =
      (dbEmpty, [], .error .typeError) :=
  ⟨rfl, sendMessage_fails_when_sender_missing envOkAll dbEmpty "cA" ⟨"hi", "bob"⟩ rfl⟩

/-- C5: one push attempt behaves per the transport's report: success returns `true`
and leaves the registry alone; the 410 stale signal returns `false` and deletes that
connectionId's registry row; any other delivery error propagates uncaught. -/
theorem postToConnection_outcomes (env : Env) (clients : List Client)
    (cid data : String) :
    (env.push cid = .ok →
      postToConnection env clients cid data =
        (clients, [.post cid (wireData data)], .ok true)) ∧
    (env.push cid = .gone →
      postToConnection env clients cid data =
        (removeClient clients cid, [.post cid (wireData data)], .ok false)) ∧
    (env.push cid = .err →
      postToConnection env clients cid data =
        (clients, [.post cid (wireData data)], .error .transportError)) := by
  refine ⟨fun h => ?_, fun h => ?_, fun h => ?_⟩ <;> simp [postToConnection, h]

/-- Witness for C5: all three outcomes exercised at concrete inputs. -/
theorem postToConnection_outcomes_witness :
    postToConnection envOkAll [aliceRow] "cA" "d" =
      ([aliceRow], [.post "cA" (wireData "d")], .ok true) ∧
    postToConnection envGoneAll [aliceRow] "cA" "d" =
      (removeClient [aliceRow] "cA", [.post "cA" (wireData "d")], .ok false) ∧
    postToConnection envErrAll [aliceRow] "cA" "d" =
      ([aliceRow], [.post "cA" (wireData "d")], .error .transportError) :=
  ⟨(postToConnection_outcomes envOkAll [aliceRow] "cA" "d").1 rfl,
    (postToConnection_outcomes envGoneAll [aliceRow] "cA" "d").2.1 rfl,
    (postToConnection_outcomes envErrAll [aliceRow] "cA" "d").2.2 rfl⟩

/-- C6 counterexample: an unparseable (non-empty, invalid JSON) sendMessage body
raises a `SyntaxError`, which is not an `instanceof HandleError` and is therefore
rethrown by the dispatcher's catch: the invocation fails instead of completing with
200, and no error echo is pushed to the originating connection. -/
theorem malformed_body_is_rethrown :
    handle envOkAll dbAliceBob ⟨"cA", .sendMessage, .malformed, none⟩ =
      (dbAliceBob, [], .error .badJson) ∧
    (handle envOkAll dbAliceBob ⟨"cA", .sendMessage, .malformed, none⟩).2.2 ≠
      .ok twoHundredResponse := by
  refine ⟨rfl, ?_⟩
  intro h
  exact Except.noConfusion h

/-- C6 amended: only a validation failure raised as a `HandleError` — a body that
`JSON.parse` accepts (or a null/empty body, defaulted to the empty document) whose
fields have the wrong types — is caught at the top level, echoed to the originating
connection as a push, and resolves the invocation with 200 (provided the echo push
itself does not raise); an unparseable body propagates as a SyntaxError. -/
theorem typed_validation_error_echoed (env : Env) (db : Db) (cid : String)
    (qsp : Option (List (String × String))) (body : BodyInput)
    (hok : env.push cid = .ok) :
    (∀ m, parseSendMessageBody body = .error (.handleError m) →
      handle env db ⟨cid, .sendMessage, body, qsp⟩ =
        (db, [.post cid (wireData m)], .ok twoHundredResponse)) ∧
    (∀ m, parseGetMessagesBody body = .error (.handleError m) →
      handle env db ⟨cid, .getMessages, body, qsp⟩ =
        (db, [.post cid (wireData m)], .ok twoHundredResponse)) := by
  constructor <;> intro m hp <;>
    simp [handle, hp, catchHandleError, postToConnection, hok]

/-- Witness for C6's amended theorem: the body `5` is valid JSON of the wrong shape,
so both parsers raise `HandleError` and both routes echo it and resolve 200. -/
theorem typed_validation_error_echoed_witness :
    envOkAll.push "cA" = .ok ∧
    handle envOkAll dbAliceBob ⟨"cA", .sendMessage, .val (.num 5), none⟩ =
      (dbAliceBob, [.post "cA" (wireData "incorrect SendMessageBody format")],
        .ok twoHundredResponse) ∧
    handle envOkAll dbAliceBob ⟨"cA", .getMessages, .val (.num 5), none⟩ =
      (dbAliceBob, [.post "cA" (wireData "incorrect GetNessages format")],
        .ok twoHundredResponse) :=
  ⟨rfl,
    (typed_validation_error_echoed envOkAll dbAliceBob "cA" none (.val (.num 5))
      rfl).1 "incorrect SendMessageBody format" rfl,
    (typed_validation_error_echoed envOkAll dbAliceBob "cA" none (.val (.num 5))
      rfl).2 "incorrect GetNessages format" rfl⟩

/-- Helper: whenever the sender row resolves, `handleSendMessage` appends exactly the
constructed message row to the `Messages` table, on every delivery path. -/
theorem sendMessage_messages_eq (env : Env) (db : Db) (scid : String)
    (body : SendMessageBody) (sender : Client)
    (hs : getClientById db.clients scid = some sender) :
    (handleSendMessage env db scid body).1.messages =
      db.messages ++ [msgOf env sender body] := by
  unfold handleSendMessage
  rw [hs]
  dsimp only
  by_cases hR : jsTruthyStr (getConnectioinIdByNickname db.clients body.receiverNickname)
  · simp only [hR, if_true]
    cases hp : env.push ((getConnectioinIdByNickname db.clients body.receiverNickname).getD "") <;>
      simp [postToConnection, hp]
  · simp [hR]

/-- C3: for every send with a connected sender, the new message row (fresh generated
id, canonical conversation key, sender nickname, body) is appended to the message
store, the `put` precedes every push attempt in the effect trace, and the send
acknowledges 200 whether or not live delivery happened — only a rethrown non-410
transport error can escape.  In particular, when the receiver's connection reports
gone the send still returns 200, the message row stays in the store, and the
receiver's registry row is removed as a side effect. -/
theorem sendMessage_persisted_before_push (env : Env) (db : Db) (scid : String)
    (body : SendMessageBody) (sender : Client)
    (hs : getClientById db.clients scid = some sender) :
    (handleSendMessage env db scid body).1.messages =
      db.messages ++ [msgOf env sender body] ∧
    (handleSendMessage env db scid body).2.1.head? =
      some (Event.putMessage (msgOf env sender body)) ∧
    ((handleSendMessage env db scid body).2.2 = .ok twoHundredResponse ∨
      (handleSendMessage env db scid body).2.2 = .error .transportError) ∧
    (∀ rcid, getConnectioinIdByNickname db.clients body.receiverNickname = some rcid →
      rcid ≠ "" → env.push rcid = .gone →
      (handleSendMessage env db scid body).2.2 = .ok twoHundredResponse ∧
      (handleSendMessage env db scid body).1.clients = removeClient db.clients rcid) := by
  refine ⟨sendMessage_messages_eq env db scid body sender hs, ?_⟩
  unfold handleSendMessage
  rw [hs]
  dsimp only
  cases hR : getConnectioinIdByNickname db.clients body.receiverNickname with
  | none =>
    simp only [jsTruthyStr, Bool.false_eq_true, if_false]
    refine ⟨by trivial, Or.inl (by trivial), ?_⟩
    intro rcid h1
    exact Option.noConfusion h1
  | some r =>
    by_cases hr : r = ""
    · subst hr
      simp only [jsTruthyStr, bne_self_eq_false, Bool.false_eq_true, if_false]
      refine ⟨by trivial, Or.inl (by trivial), ?_⟩
      intro rcid h1 h2
      injection h1 with h1
      exact absurd h1.symm h2
    · have hrt : (r != "") = true := bne_iff_ne.mpr hr
      simp only [jsTruthyStr, hrt, if_true, Option.getD_some]
      cases hp : env.push r with
      | ok =>
        simp only [postToConnection, hp]
        refine ⟨by trivial, Or.inl (by trivial), ?_⟩
        intro rcid h1 h2 h3
        injection h1 with h1
        rw [← h1, hp] at h3
        exact PushOutcome.noConfusion h3
      | gone =>
        simp only [postToConnection, hp]
        refine ⟨by trivial, Or.inl (by trivial), ?_⟩
        intro rcid h1 h2 h3
        injection h1 with h1
        rw [← h1]
        exact ⟨by trivial, by trivial⟩
      | err =>
        simp only [postToConnection, hp]
        refine ⟨by trivial, Or.inr (by trivial), ?_⟩
        intro rcid h1 h2 h3
        injection h1 with h1
        rw [← h1, hp] at h3
        exact PushOutcome.noConfusion h3

/-- Witness for C3: alice sends "hi" to bob while bob's connection is stale; the put
happens first, the send still acknowledges 200, and bob's registry row is evicted. -/
theorem sendMessage_persisted_before_push_witness :
    getClientById dbAliceBob.clients "cA" = some aliceRow ∧
    ((handleSendMessage envGoneAll dbAliceBob "cA" ⟨"hi", "bob"⟩).1.messages =
        dbAliceBob.messages ++ [msgOf envGoneAll aliceRow ⟨"hi", "bob"⟩] ∧
      (handleSendMessage envGoneAll dbAliceBob "cA" ⟨"hi", "bob"⟩).2.1.head? =
        some (Event.putMessage (msgOf envGoneAll aliceRow ⟨"hi", "bob"⟩)) ∧
      ((handleSendMessage envGoneAll dbAliceBob "cA" ⟨"hi", "bob"⟩).2.2 =
          .ok twoHundredResponse ∨
        (handleSendMessage envGoneAll dbAliceBob "cA" ⟨"hi", "bob"⟩).2.2 =
          .error .transportError) ∧
      (∀ rcid, getConnectioinIdByNickname dbAliceBob.clients "bob" = some rcid →
        rcid ≠ "" → envGoneAll.push rcid = .gone →
        (handleSendMessage envGoneAll dbAliceBob "cA" ⟨"hi", "bob"⟩).2.2 =
          .ok twoHundredResponse ∧
        (handleSendMessage envGoneAll dbAliceBob "cA" ⟨"hi", "bob"⟩).1.clients =
          removeClient dbAliceBob.clients rcid)) :=
  ⟨rfl, sendMessage_persisted_before_push envGoneAll dbAliceBob "cA" ⟨"hi", "bob"⟩
    aliceRow rfl⟩

/-- C10: the `createdAt` persisted by a send is `new Date().getMilliseconds()`, the
milliseconds-within-the-current-second component of the wall clock — an integer
strictly below 1000, not a full timestamp — so a later send can store a strictly
smaller `createdAt` (999 at epoch-millisecond 999, then 0 one millisecond later). -/
theorem createdAt_is_millis_within_second (env : Env) (db : Db) (scid : String)
    (body : SendMessageBody) (sender : Client)
    (hs : getClientById db.clients scid = some sender) :
    (handleSendMessage env db scid body).1.messages =
      db.messages ++ [msgOf env sender body] ∧
    (msgOf env sender body).createdAt = env.now % 1000 ∧
    (msgOf env sender body).createdAt < 1000 ∧
    ∀ push uuid, (msgOf ⟨push, uuid, 1000⟩ sender body).createdAt <
      (msgOf ⟨push, uuid, 999⟩ sender body).createdAt := by
  refine ⟨sendMessage_messages_eq env db scid body sender hs, rfl,
    Nat.mod_lt _ (by norm_num), ?_⟩
  intro push uuid
  show 1000 % 1000 < 999 % 1000
  norm_num

/-- Witness for C10 at a concrete input. -/
theorem createdAt_is_millis_within_second_witness :
    getClientById dbAliceBob.clients "cA" = some aliceRow ∧
    ((handleSendMessage envOkAll dbAliceBob "cA" ⟨"hi", "bob"⟩).1.messages =
        dbAliceBob.messages ++ [msgOf envOkAll aliceRow ⟨"hi", "bob"⟩] ∧
      (msgOf envOkAll aliceRow ⟨"hi", "bob"⟩).createdAt = envOkAll.now % 1000 ∧
      (msgOf envOkAll aliceRow ⟨"hi", "bob"⟩).createdAt < 1000 ∧
      ∀ push uuid, (msgOf ⟨push, uuid, 1000⟩ aliceRow ⟨"hi", "bob"⟩).createdAt <
        (msgOf ⟨push, uuid, 999⟩ aliceRow ⟨"hi", "bob"⟩).createdAt) :=
  ⟨rfl, createdAt_is_millis_within_second envOkAll dbAliceBob "cA" ⟨"hi", "bob"⟩
    aliceRow rfl⟩

/-- Helper: unfolding one step of the broadcast fold. -/
theorem fanOut_cons (env : Env) (clients : List Client) (t : Client)
    (rest : List Client) (data : String) :
    fanOut env clients (t :: rest) data =
      ((fanOut env (postToConnection env clients t.connectionId data).1 rest data).1,
        (postToConnection env clients t.connectionId data).2.1 ++
          (fanOut env (postToConnection env clients t.connectionId data).1 rest data).2.1,
        (match (postToConnection env clients t.connectionId data).2.2 with
          | .error _ => true | .ok _ => false) ||
          (fanOut env (postToConnection env clients t.connectionId data).1 rest data).2.2) := by
  rcases hP : postToConnection env clients t.connectionId data with ⟨c1, e1, r1⟩
  rcases hF : fanOut env c1 rest data with ⟨c2, e2, b2⟩
  simp [fanOut, hP, hF]

/-- Helper: the fan-out posts `data` (wire-serialized once more) to every target,
once each, in target order, regardless of the per-recipient outcomes. -/
theorem fanOut_events (env : Env) (data : String) :
    ∀ (targets clients : List Client),
      (fanOut env clients targets data).2.1 =
        targets.map (fun t => Event.post t.connectionId (wireData data)) := by
  intro targets
  induction targets with
  | nil => intro clients; rfl
  | cons t rest ih =>
    intro clients
    rw [fanOut_cons]
    dsimp only
    rw [ih]
    cases hp : env.push t.connectionId <;> simp [postToConnection, hp]

/-- Helper: the fan-out never inserts registry rows. -/
theorem fanOut_subset (env : Env) (data : String) :
    ∀ (targets clients : List Client) (c : Client),
      c ∈ (fanOut env clients targets data).1 → c ∈ clients := by
  intro targets
  induction targets with
  | nil => intro clients c h; exact h
  | cons t rest ih =>
    intro clients c h
    rw [fanOut_cons] at h
    dsimp only at h
    have h2 := ih _ _ h
    cases hp : env.push t.connectionId <;> simp [postToConnection, hp] at h2
    · exact h2
    · simp [removeClient, List.mem_filter] at h2
      exact h2.1
    · exact h2

/-- Helper: a row whose own connection does not report gone survives the fan-out:
each branch deletes only its own target's key. -/
theorem fanOut_keeps_not_gone (env : Env) (data : String) :
    ∀ (targets clients : List Client) (c : Client),
      c ∈ clients → env.push c.connectionId ≠ .gone →
      c ∈ (fanOut env clients targets data).1 := by
  intro targets
  induction targets with
  | nil => intro clients c hc _; exact hc
  | cons t rest ih =>
    intro clients c hc hng
    rw [fanOut_cons]
    dsimp only
    refine ih _ _ ?_ hng
    cases hp : env.push t.connectionId <;> simp [postToConnection, hp]
    · exact hc
    · simp [removeClient, List.mem_filter, bne_iff_ne]
      refine ⟨hc, ?_⟩
      intro hEq
      exact hng (by rw [hEq, hp])
    · exact hc

/-- Helper: deleting a key then filtering by the same key again changes nothing. -/
theorem removeClient_filter_idem (l : List Client) (cid : String) :
    (removeClient l cid).filter (fun c => c.connectionId != cid) = removeClient l cid := by
  unfold removeClient
  induction l with
  | nil => rfl
  | cons c rest ih =>
    cases h : c.connectionId != cid <;> simp [List.filter_cons, h, ih]

/-- Helper: the registry and event components of `notifyClients` are those of its
fan-out (the error flag only decides the result value). -/
theorem notifyClients_eq (env : Env) (clients : List Client) (ignore : String) :
    (notifyClients env clients ignore).1 =
      (fanOut env clients (clients.filter (fun c => c.connectionId != ignore))
        (buildClientsMessage clients)).1 ∧
    (notifyClients env clients ignore).2.1 =
      (fanOut env clients (clients.filter (fun c => c.connectionId != ignore))
        (buildClientsMessage clients)).2.1 := by
  unfold notifyClients
  rcases hF : fanOut env clients (clients.filter (fun c => c.connectionId != ignore))
      (buildClientsMessage clients) with ⟨c1, e1, b1⟩
  cases b1 <;> simp

/-- Helper: the registry and event components of `handleDisconnect` are those of its
broadcast over the registry with the departing row removed. -/
theorem handleDisconnect_eq (env : Env) (db : Db) (cid : String) :
    (handleDisconnect env db cid).1.clients =
      (notifyClients env (removeClient db.clients cid) cid).1 ∧
    (handleDisconnect env db cid).2.1 =
      (notifyClients env (removeClient db.clients cid) cid).2.1 := by
  unfold handleDisconnect
  rcases hN : notifyClients env (removeClient db.clients cid) cid with ⟨c1, e1, r⟩
  cases r <;> simp

/-- C7: disconnecting `c1` removes only `c1`'s registry row — unconditionally and
idempotently, the delete is keyed by `c1` alone — never alters the row of a live
`c2 ≠ c1`, and the presence broadcast is pushed to exactly the remaining connections,
excluding only the departing connectionId. -/
theorem disconnect_preserves_others (env : Env) (db : Db) (c1 : String) (c2 : Client)
    (h2 : c2 ∈ db.clients) (hne : c2.connectionId ≠ c1)
    (hlive : env.push c2.connectionId = .ok) :
    c2 ∈ (handleDisconnect env db c1).1.clients ∧
    (∀ c ∈ (handleDisconnect env db c1).1.clients, c.connectionId ≠ c1) ∧
    (handleDisconnect env db c1).2.1 =
      (removeClient db.clients c1).map (fun c =>
        Event.post c.connectionId
          (wireData (buildClientsMessage (removeClient db.clients c1)))) := by
  obtain ⟨hdc, hde⟩ := handleDisconnect_eq env db c1
  obtain ⟨hnc, hnev⟩ := notifyClients_eq env (removeClient db.clients c1) c1
  have hidem := removeClient_filter_idem db.clients c1
  refine ⟨?_, ?_, ?_⟩
  · rw [hdc, hnc, hidem]
    refine fanOut_keeps_not_gone env _ _ _ c2 ?_ ?_
    · simp [removeClient, List.mem_filter, h2, bne_iff_ne, hne]
    · rw [hlive]
      intro h
      exact PushOutcome.noConfusion h
  · intro c hc
    rw [hdc, hnc, hidem] at hc
    have hmem := fanOut_subset env _ _ _ c hc
    simp [removeClient, List.mem_filter, bne_iff_ne] at hmem
    exact hmem.2
  · rw [hde, hnev, hidem, fanOut_events]

/-- Witness for C7: bob's row survives alice's disconnect and bob alone receives the
presence broadcast. -/
theorem disconnect_preserves_others_witness :
    bobRow ∈ dbAliceBob.clients ∧ bobRow.connectionId ≠ "cA" ∧
    envOkAll.push bobRow.connectionId = .ok ∧
    (bobRow ∈ (handleDisconnect envOkAll dbAliceBob "cA").1.clients ∧
      (∀ c ∈ (handleDisconnect envOkAll dbAliceBob "cA").1.clients,
        c.connectionId ≠ "cA") ∧
      (handleDisconnect envOkAll dbAliceBob "cA").2.1 =
        (removeClient dbAliceBob.clients "cA").map (fun c =>
          Event.post c.connectionId
            (wireData (buildClientsMessage (removeClient dbAliceBob.clients "cA"))))) :=
  ⟨by decide, by decide, rfl,
    disconnect_preserves_others envOkAll dbAliceBob "cA" bobRow (by decide) (by decide) rfl⟩

/-- C8: the `Data` delivered through the push collaborator is NOT the JSON
serialization of the tagged-union object — `postToConnection` applies
`JSON.stringify` to its already-serialized string argument, so the recipient of
bob's "hi" receives the JSON string literal quoting the object's serialization (a
double-encoded payload), which differs from the object's serialization itself. -/
theorem push_payload_double_encoded :
    (handleSendMessage envOkAll dbAliceBob "cB" ⟨"hi", "alice"⟩).2.1 =
      [Event.putMessage (msgOf envOkAll bobRow ⟨"hi", "alice"⟩),
        Event.post "cA" (wireData (messagePayload "bob" "hi"))] ∧
    wireData (messagePayload "bob" "hi") ≠ messagePayload "bob" "hi" :=
  ⟨rfl, by decide⟩

/-- C9 counterexample: a fetch-history body with an empty `targetNickname` and the
non-positive `limit` -5 passes validation — `parseGetMessagesBody` checks only the
JavaScript types of the fields — and the invocation then fails with the
ReferenceError of the broken `handleGetMessages` body, not with any validation
condition. -/
theorem getMessages_validation_gap :
    parseGetMessagesBody
        (.val (.obj [("targetNickname", .str ""), ("limit", .num (-5))])) =
      .ok ⟨"", -5, none⟩ ∧
    handle envOkAll dbAliceBob
        ⟨"cA", .getMessages,
          .val (.obj [("targetNickname", .str ""), ("limit", .num (-5))]), none⟩ =
      (dbAliceBob, [], .error .referenceError) :=
  ⟨rfl, rfl⟩

/-- C9 amended: the fetch-history validation is type-only: every string
`targetNickname` (the empty string included) together with every numeric `limit`
(non-positive values included) is accepted, while a wrongly-typed `targetNickname`
raises the validation condition. -/
theorem getMessages_type_checks_only (s : String) (n : Int) :
    parseGetMessagesBody
        (.val (.obj [("targetNickname", .str s), ("limit", .num n)])) =
      .ok ⟨s, n, none⟩ ∧
    parseGetMessagesBody (.val (.obj [("targetNickname", .null), ("limit", .num n)])) =
      .error (.handleError "incorrect GetNessages format") :=
  ⟨rfl, rfl⟩
